import Mathlib

/-!
Verification of the automatic requires-detection engine of cargo-generate-rpm
(modules src/auto_req/mod.rs, src/auto_req/builtin.rs, src/auto_req/script.rs).

Modelling conventions:
- Rust strings are modelled as lists of Unicode scalar values (List Nat); for
  file contents read byte-wise (the shebang analyzer) the list holds bytes,
  which coincides with scalar values on ASCII data.  All character-level
  string operations of the source (split, trim, contains, starts_with,
  replace) are modelled on these lists.
- Filesystem and process interaction is modelled by explicit oracles:
  LddEnv describes the behavior of one spawned ldd process, ScriptEnv the
  behavior of one spawned external script, and an existence predicate
  (List Nat → Bool) models Path::exists.  A FileModel bundles everything the
  engine can observe about one candidate file.
- Fallible Rust code returning Result is modelled with Except; a Rust panic
  (reachable through Option::unwrap on path.to_str()) is modelled by an
  outer Option whose none value means the call panicked.
- BTreeSet String is modelled as a lexicographically sorted duplicate-free
  list, with insertion btreeInsert; Rust String order is byte-lexicographic,
  which on scalar-value lists is the order lexLt below.
-/

/-- Scalar values of a string literal, used to write concrete byte lists. -/
def str (s : String) : List Nat := s.data.map Char.toNat

/-- Rust char::is_whitespace (Unicode White_Space property). -/
def char_is_whitespace (c : Nat) : Bool :=
  c == 0x09 || c == 0x0A || c == 0x0B || c == 0x0C || c == 0x0D || c == 0x20 ||
  c == 0x85 || c == 0xA0 || c == 0x1680 || (0x2000 ≤ c && c ≤ 0x200A) ||
  c == 0x2028 || c == 0x2029 || c == 0x202F || c == 0x205F || c == 0x3000

/-- Rust str::trim_start. -/
def rustTrimStart (s : List Nat) : List Nat := s.dropWhile char_is_whitespace

/-- Rust str::trim. -/
def rustTrim (s : List Nat) : List Nat :=
  ((s.dropWhile char_is_whitespace).reverse.dropWhile char_is_whitespace).reverse

/-- Rust str::split with a one-character pattern: the full list of pieces. -/
def splitOnByte (b : Nat) : List Nat → List (List Nat)
  | [] => [[]]
  | c :: rest =>
    let parts := splitOnByte b rest
    if c == b then [] :: parts
    else (c :: parts.headD []) :: parts.tail

/-- Rust str::contains with a string pattern (contiguous occurrence). -/
def containsSeq (pat s : List Nat) : Bool :=
  s.tails.any (fun t => pat.isPrefixOf t)

/-- First element of Rust str::split with a string pattern: the text before
the first occurrence of the separator (the whole string if it never occurs). -/
def beforeSeq (sep : List Nat) : List Nat → List Nat
  | [] => []
  | b :: rest => if sep.isPrefixOf (b :: rest) then [] else b :: beforeSeq sep rest

/-- First element of Rust str::split with the pattern of one space. -/
def beforeSpace (s : List Nat) : List Nat := s.takeWhile (fun b => !(b == 32))

/-- Strict byte-lexicographic order on strings; this is the order of
Rust Ord on String, hence the iteration order of BTreeSet String. -/
def lexLt : List Nat → List Nat → Bool
  | [], [] => false
  | [], _ :: _ => true
  | _ :: _, [] => false
  | a :: as, b :: bs => a < b || (a == b && lexLt as bs)

/-- Insertion into the sorted duplicate-free list modelling a BTreeSet. -/
def btreeInsert (s : List Nat) : List (List Nat) → List (List Nat)
  | [] => [s]
  | x :: xs =>
    if lexLt s x then s :: x :: xs
    else if s = x then x :: xs
    else x :: btreeInsert s xs

/-- Rust BufRead::read_line on the remaining reader content: the bytes up to
and including the first newline (everything when there is none). -/
def readFirstLine : List Nat → List Nat
  | [] => []
  | b :: rest => if b == 10 then [10] else b :: readFirstLine rest

/-- Drop one trailing carriage return (the CRLF handling of the
BufRead::lines iterator). -/
def stripCR (l : List Nat) : List Nat :=
  if l.getLast? == some 13 then l.dropLast else l

/-- The sequence of lines produced by the BufRead::lines iterator over the
whole stdout text: pieces split on the newline byte, a terminating carriage
return removed from every newline-terminated piece, and no final empty piece
for a trailing newline. -/
def rustLines (s : List Nat) : List (List Nat) :=
  if s.isEmpty then []
  else
    let parts := splitOnByte 10 s
    if s.getLast? == some 10 then (parts.dropLast).map stripCR
    else (parts.dropLast).map stripCR ++ [parts.getLastD []]

/-- Rust slice join with a newline separator. -/
def joinNL : List (List Nat) → List Nat
  | [] => []
  | [p] => p
  | p :: ps => p ++ 10 :: joinNL ps

/-- The error type of src/error.rs relevant to discovery (AutoReqError);
the underlying std::io::Error cause is abstracted to a numeric code. -/
inductive AutoReqError where
  | ProcessError (program : List Nat) (cause : Nat)
  | WrongMode
deriving DecidableEq

namespace elf

/-- The ELF bit class (elf::file::Class). -/
inductive Class where
  | ELF32
  | ELF64
deriving DecidableEq

/-- elf::abi::EM_ALPHA, the canonical Digital Alpha machine code of the ELF
e_machine registry. -/
def EM_ALPHA : Nat := 41

end elf

/-- builtin.rs lines 13-18: the data ElfInfo::new extracts from the ELF file
header and the section-header table (bit class, machine code, presence of a
SHT_HASH section, presence of a SHT_GNU_HASH section). -/
structure ElfInfo where
  machine : elf.Class × Nat
  got_hash : Bool
  got_gnu_hash : Bool

/-- builtin.rs lines 38-44: ElfInfo::marker. -/
def ElfInfo.marker (i : ElfInfo) : Option (List Nat) :=
  match i.machine with
  | (elf.Class.ELF64, m) =>
    if m = elf.EM_ALPHA ∨ m = 0x9026 then none else some (str "(64bit)")
  | (elf.Class.ELF32, _) => none

/-- Observable behavior of one spawned ldd -v process for one path:
spawn is some cause when spawning fails (builtin.rs lines 65-70), read is
some cause when read_to_string fails (lines 72-77), output is the captured
stdout text. -/
structure LddEnv where
  spawn : Option Nat
  read : Option Nat
  output : List Nat

/-- Everything the Builtin engine can observe about one candidate file: the
execute permission test (builtin.rs lines 177-184), the result of
ElfInfo::new (none models a parse failure of any kind), the behavior of ldd
on this path, path.to_str() (none models a path that is not valid UTF-8),
and the readable file content for shebang detection (none models an open or
read I/O error, each of which the source maps to Ok(None)). -/
structure FileModel where
  is_executable : Bool
  elf : Option ElfInfo
  ldd : LddEnv
  pathStr : Option (List Nat)
  content : Option (List Nat)

namespace builtin

/-- The fixed loader and library name prefixes accepted by skip_so_name
(builtin.rs lines 58-62). -/
def acceptedStart (s : List Nat) : Bool :=
  (str "ld.").isPrefixOf s || (str "ld-").isPrefixOf s ||
  (str "ld64.").isPrefixOf s || (str "ld64-").isPrefixOf s ||
  (str "lib").isPrefixOf s

/-- builtin.rs lines 56-63: the soname acceptance predicate skip_so_name
(the source uses it as a keep-filter despite its name). -/
def skip_so_name (so_name : List Nat) : Bool :=
  containsSeq (str ".so") so_name && acceptedStart so_name

/-- builtin.rs lines 79-82: the unversioned pass over the ldd output: lines
up to (not including) the first blank line, first space-separated token of
each after trim_start. -/
def unversioned_libraries (output : List Nat) : List (List Nat) :=
  ((splitOnByte 10 output).takeWhile (fun line => !(rustTrim line).isEmpty)).map
    (fun line => beforeSpace (rustTrimStart line))

/-- builtin.rs lines 84-86: the lines strictly after the first line
containing the marker phrase.  When this list is empty the skip_while
closure containing path.to_str().unwrap() is never invoked by the lazy
iterator chain. -/
def version_section (output : List Nat) : List (List Nat) :=
  ((splitOnByte 10 output).dropWhile
    (fun line => !containsSeq (str "Version information:") line)).drop 1

/-- builtin.rs lines 87-90: the remainder of the versioned pass, given the
section after the marker line and the UTF-8 path text: skip to the first
line mentioning the path, skip it, take following lines containing the
arrow separator, and keep the text before the separator after trim_start. -/
def versioned_libraries (sect : List (List Nat)) (p : List Nat) : List (List Nat) :=
  (((sect.dropWhile (fun line => !containsSeq p line)).drop 1).takeWhile
    (fun line => containsSeq (str " => ") line)).map
    (fun line => beforeSeq (str " => ") (rustTrimStart line))

/-- builtin.rs lines 98-106: the body of the insertion loop for one accepted
candidate name; name.replace of the space character by the empty string is
the filter removing byte 32. -/
def insert_requires (marker : List Nat) (requires : List (List Nat))
    (name : List Nat) : List (List Nat) :=
  if containsSeq (str " (") name then
    btreeInsert (name.filter (fun b => !(b == 32)) ++ marker)
      (btreeInsert (beforeSpace name ++ str "()" ++ marker) requires)
  else
    btreeInsert (name.filter (fun b => !(b == 32)) ++ str "()" ++ marker) requires

/-- builtin.rs lines 93-107: filter the chained candidate streams with
skip_so_name and fold the insertion loop over them, starting from the empty
BTreeSet. -/
def requires_of_names (names : List (List Nat)) (marker : List Nat) :
    List (List Nat) :=
  (names.filter skip_so_name).foldl (insert_requires marker) []

/-- Specification view of the insertion loop body: the requirement strings
emitted for one accepted candidate name (spec 4.3, naming synthesis). -/
def emitted_requires (marker : List Nat) (name : List Nat) : List (List Nat) :=
  if containsSeq (str " (") name then
    [beforeSpace name ++ str "()" ++ marker,
     name.filter (fun b => !(b == 32)) ++ marker]
  else
    [name.filter (fun b => !(b == 32)) ++ str "()" ++ marker]

/-- builtin.rs lines 52-108: find_requires_by_ldd.  The outer Option models
a panic: none is returned exactly when path.to_str().unwrap() is forced on a
non-UTF-8 path, which happens the first time the skip_while closure of the
versioned pass is invoked, i.e. exactly when the version section is
non-empty. -/
def find_requires_by_ldd (env : LddEnv) (pathStr : Option (List Nat))
    (marker : Option (List Nat)) :
    Option (Except AutoReqError (List (List Nat))) :=
  match env.spawn with
  | some e => some (.error (.ProcessError (str "ldd") e))
  | none =>
  match env.read with
  | some e => some (.error (.ProcessError (str "ldd") e))
  | none =>
    let m := marker.getD []
    match version_section env.output with
    | [] => some (.ok (requires_of_names (unversioned_libraries env.output) m))
    | _ :: _ =>
      match pathStr with
      | none => none
      | some p =>
        some (.ok (requires_of_names
          (unversioned_libraries env.output ++
            versioned_libraries (version_section env.output) p) m))

/-- builtin.rs lines 110-120: find_requires_of_elf. -/
def find_requires_of_elf (fm : FileModel) :
    Option (Except AutoReqError (Option (List (List Nat)))) :=
  match fm.elf with
  | some info =>
    match find_requires_by_ldd fm.ldd fm.pathStr info.marker with
    | none => none
    | some (.error e) => some (.error e)
    | some (.ok requires) =>
      some (.ok (some (if info.got_gnu_hash && !info.got_hash
        then btreeInsert (str "rtld(GNU_HASH)") requires
        else requires)))
  | none => some (.ok none)

/-- builtin.rs lines 131-163: find_require_of_shebang over the file content
and the Path::exists predicate.  The source guard on line 144 tests
shebang_size == 2 OR the two bytes being the shebang marker bytes 35, 33;
a logical AND was evidently intended there, and the model reproduces the
OR faithfully. -/
def find_require_of_shebang (fs : List Nat → Bool)
    (content : Option (List Nat)) : Option (List Nat) :=
  match content with
  | none => none
  | some bytes =>
    if bytes.length = 0 then none
    else
      let shebang_size := min 2 bytes.length
      let shebang := bytes.take 2
      if shebang_size == 2 || shebang == [35, 33] then
        let line := readFirstLine (bytes.drop 2)
        let interpreter := (rustTrim line).takeWhile
          (fun c => c < 128 && !char_is_whitespace c)
        if fs interpreter then some interpreter else none
      else none

/-- builtin.rs lines 201-208: the body of the find_requires loop for one
candidate file. -/
def per_file_requires (fs : List Nat → Bool) (fm : FileModel) :
    Option (Except AutoReqError (List (List Nat))) :=
  if fm.is_executable then
    match find_requires_of_elf fm with
    | none => none
    | some (.error e) => some (.error e)
    | some (.ok (some elf_requires)) => some (.ok elf_requires)
    | some (.ok none) =>
      match find_require_of_shebang fs fm.content with
      | some shebang_require => some (.ok [shebang_require])
      | none => some (.ok [])
  else some (.ok [])

/-- builtin.rs lines 199-211: find_requires, accumulating the per-file
contributions into one Vec in input order. -/
def find_requires (fs : List Nat → Bool) :
    List FileModel → Option (Except AutoReqError (List (List Nat)))
  | [] => some (.ok [])
  | fm :: rest =>
    match per_file_requires fs fm with
    | none => none
    | some (.error e) => some (.error e)
    | some (.ok rs) =>
      match find_requires fs rest with
      | none => none
      | some (.error e) => some (.error e)
      | some (.ok rest_rs) => some (.ok (rs ++ rest_rs))

end builtin

namespace script

/-- Observable behavior of one spawned external script process: spawn and
write are some cause on failure (script.rs lines 12-16 and 23-27); run maps
the text written to stdin to the captured stdout text, or to an I/O error
cause raised while reading it (script.rs lines 30-43). -/
structure ScriptEnv where
  spawn : Option Nat
  write : Option Nat
  run : List Nat → Except Nat (List Nat)

/-- script.rs lines 8-46: find_requires via the external program located at
script_path.  The stdin text is the newline join of the paths converting
cleanly to UTF-8 (lines 18-22); the result collects the non-empty stdout
lines verbatim (lines 29-43). -/
def find_requires (script_path : List Nat) (env : ScriptEnv)
    (path : List (Option (List Nat))) : Except AutoReqError (List (List Nat)) :=
  match env.spawn with
  | some e => .error (.ProcessError script_path e)
  | none =>
    let filenames := joinNL (path.filterMap id)
    match env.write with
    | some e => .error (.ProcessError script_path e)
    | none =>
      match env.run filenames with
      | .error e => .error (.ProcessError script_path e)
      | .ok stdout =>
        .ok ((rustLines stdout).filter (fun content => !(content == [])))

end script

namespace auto_req

/-- mod.rs line 8: the well-known system script path. -/
def RPM_FIND_REQUIRES : List Nat := str "/usr/lib/rpm/find-requires"

/-- mod.rs lines 11-21: AutoReqMode. -/
inductive AutoReqMode where
  | Auto
  | Disabled
  | Script (path : List Nat)
  | BuiltIn
deriving DecidableEq

/-- The ambient environment of one discovery call: whether the well-known
script path exists (consulted by the Auto arm, mod.rs line 70), the behavior
of a spawned script per program path, and the Path::exists predicate
consulted by shebang resolution. -/
structure Env where
  rpm_find_requires_exists : Bool
  script_env : List Nat → script.ScriptEnv
  fs : List Nat → Bool

/-- Recursion measure for the mode dispatcher (Auto resolves once). -/
def modeDepth : AutoReqMode → Nat
  | .Auto => 1
  | _ => 0

/-- mod.rs lines 64-85: the mode dispatcher find_requires. -/
def find_requires (env : Env) (files : List FileModel) :
    AutoReqMode → Option (Except AutoReqError (List (List Nat)))
  | .Auto =>
    if env.rpm_find_requires_exists then
      find_requires env files (.Script RPM_FIND_REQUIRES)
    else
      find_requires env files .BuiltIn
  | .Disabled => some (.ok [])
  | .Script sp =>
    some (script.find_requires sp (env.script_env sp) (files.map (·.pathStr)))
  | .BuiltIn => builtin.find_requires env.fs files
termination_by m => modeDepth m
decreasing_by all_goals simp [modeDepth]

end auto_req


/-- A 32-bit ELF descriptor with machine code 3 (EM_386) and no hash
sections, used as concrete input below. -/
def info386 : ElfInfo := ⟨(elf.Class.ELF32, 3), false, false⟩

/-- A successful ldd run printing one unversioned libz line. -/
def lddZ : LddEnv := ⟨none, none, str "\tlibz.so.1 => /lib/libz.so.1\n\n"⟩

/-- A successful ldd run printing one unversioned liba line. -/
def lddA : LddEnv := ⟨none, none, str "\tliba.so.1 => /lib/liba.so.1\n\n"⟩

/-- A successful ldd run whose version section holds a candidate whose
only occurrence of .so lies inside the parenthesized annotation. -/
def lddParen : LddEnv :=
  ⟨none, none, str "Version information:\n/bin/x:\n\tlib (.so) => /foo\n"⟩

/-- Executable ELF candidate resolved through lddZ. -/
def fmZ : FileModel := ⟨true, some info386, lddZ, some (str "/z"), none⟩

/-- Executable ELF candidate resolved through lddA. -/
def fmA : FileModel := ⟨true, some info386, lddA, some (str "/a"), none⟩

/-- Executable ELF candidate resolved through lddParen. -/
def fmParen : FileModel :=
  ⟨true, some info386, lddParen, some (str "/bin/x"), none⟩

/-- Executable non-ELF candidate whose content does not begin with the
shebang marker bytes. -/
def fmNoElf : FileModel := ⟨true, none, lddZ, some (str "/f"), some (str "x /bin\n")⟩

/-- Executable ELF candidate with a non-UTF-8 path whose ldd output has no
version section. -/
def fmBadPath : FileModel :=
  ⟨true, some info386, ⟨none, none, str "\tlibfoo.so.1 => /x\n\n"⟩, none, none⟩

/-- Executable ELF candidate with a non-UTF-8 path whose ldd output does
contain a version section followed by further lines. -/
def fmBadPathVI : FileModel :=
  ⟨true, some info386,
    ⟨none, none,
      str "\tlibfoo.so.1 => /x\n\nVersion information:\n/f:\n\tlibc.so.6 (GLIBC_2.4) => /lib/libc.so.6\n"⟩,
    none, none⟩

/-- Executable ELF candidate whose ldd spawn fails with cause 7. -/
def fmSpawnFail : FileModel :=
  ⟨true, some info386, ⟨some 7, none, []⟩, some (str "/f"), none⟩

/-- Executable ELF candidate whose ldd stdout read fails with cause 8. -/
def fmReadFail : FileModel :=
  ⟨true, some info386, ⟨none, some 8, []⟩, some (str "/f"), none⟩

/-- A script process that echoes its stdin to stdout. -/
def echoEnv : script.ScriptEnv := ⟨none, none, fun s => .ok s⟩

/-- A filesystem on which exactly the path /bin exists. -/
def fs_bin : List Nat → Bool := fun p => p == str "/bin"

/-- A successful ldd run whose version-information marker line is the final,
unterminated line of the output, so no piece follows it after the newline
split and the version section is empty. -/
def lddVILast : LddEnv :=
  ⟨none, none, str "\tlibq.so.1 => /x\nVersion information:"⟩

theorem lexLt_irrefl (a : List Nat) : lexLt a a = false := by
  induction a with
  | nil => rfl
  | cons x xs ih => simp [lexLt, ih]

theorem lexLt_trans {a b c : List Nat} (hab : lexLt a b = true)
    (hbc : lexLt b c = true) : lexLt a c = true := by
  induction a generalizing b c with
  | nil =>
    cases b with
    | nil => simp [lexLt] at hab
    | cons y ys =>
      cases c with
      | nil => simp [lexLt] at hbc
      | cons z zs => simp [lexLt]
  | cons x xs ih =>
    cases b with
    | nil => simp [lexLt] at hab
    | cons y ys =>
      cases c with
      | nil => simp [lexLt] at hbc
      | cons z zs =>
        simp only [lexLt, Bool.or_eq_true, Bool.and_eq_true, beq_iff_eq,
          decide_eq_true_eq] at hab hbc ⊢
        rcases hab with hxy | ⟨hxy, hab⟩ <;> rcases hbc with hyz | ⟨hyz, hbc⟩
        · exact Or.inl (hxy.trans hyz)
        · exact Or.inl (hyz ▸ hxy)
        · exact Or.inl (hxy ▸ hyz)
        · exact Or.inr ⟨hxy.trans hyz, ih hab hbc⟩

theorem lexLt_total {a b : List Nat} (hne : a ≠ b) (hab : lexLt a b = false) :
    lexLt b a = true := by
  induction a generalizing b with
  | nil =>
    cases b with
    | nil => exact absurd rfl hne
    | cons y ys => simp [lexLt] at hab
  | cons x xs ih =>
    cases b with
    | nil => simp [lexLt]
    | cons y ys =>
      simp only [lexLt, Bool.or_eq_false_iff, Bool.and_eq_false_iff,
        Bool.or_eq_true, Bool.and_eq_true, beq_iff_eq, decide_eq_true_eq,
        decide_eq_false_iff_not] at hab ⊢
      rcases hab with ⟨hxy, h2⟩
      rcases Nat.lt_or_ge y x with hlt | hge
      · exact Or.inl hlt
      · have hxy' : x = y := Nat.le_antisymm hge (Nat.le_of_not_lt hxy)
        subst hxy'
        rcases h2 with h2 | h2
        · simp at h2
        · refine Or.inr ⟨rfl, ih ?_ h2⟩
          intro h; exact hne (h ▸ rfl)

theorem mem_btreeInsert {a s : List Nat} {l : List (List Nat)} :
    a ∈ btreeInsert s l ↔ a = s ∨ a ∈ l := by
  induction l with
  | nil => simp [btreeInsert]
  | cons x xs ih =>
    simp only [btreeInsert]
    split
    · simp only [List.mem_cons]
    · split
      · next h2 => subst h2; simp only [List.mem_cons]; tauto
      · simp only [List.mem_cons, ih]; tauto

theorem pairwise_btreeInsert {s : List Nat} {l : List (List Nat)}
    (h : l.Pairwise (fun a b => lexLt a b = true)) :
    (btreeInsert s l).Pairwise (fun a b => lexLt a b = true) := by
  induction l with
  | nil => simp [btreeInsert]
  | cons x xs ih =>
    rcases List.pairwise_cons.mp h with ⟨hx, hxs⟩
    by_cases h1 : lexLt s x
    · simp only [btreeInsert, if_pos h1]
      refine List.pairwise_cons.mpr ⟨?_, h⟩
      intro y hy
      rcases List.mem_cons.mp hy with rfl | hy
      · exact h1
      · exact lexLt_trans h1 (hx y hy)
    · by_cases h2 : s = x
      · simpa only [btreeInsert, if_neg h1, if_pos h2] using h
      · simp only [btreeInsert, if_neg h1, if_neg h2]
        refine List.pairwise_cons.mpr ⟨?_, ih hxs⟩
        intro y hy
        rcases mem_btreeInsert.mp hy with rfl | hy
        · exact lexLt_total h2 (Bool.eq_false_iff.mpr h1 ▸ rfl)
        · exact hx y hy

theorem nodup_of_pairwise_lexLt {l : List (List Nat)}
    (h : l.Pairwise (fun a b => lexLt a b = true)) : l.Nodup := by
  refine h.imp ?_
  intro a b hab
  intro hEq
  rw [hEq, lexLt_irrefl] at hab
  exact Bool.false_ne_true hab

theorem mem_insert_requires {m : List Nat} {acc : List (List Nat)}
    {n a : List Nat} :
    a ∈ builtin.insert_requires m acc n ↔
      a ∈ acc ∨ a ∈ builtin.emitted_requires m n := by
  unfold builtin.insert_requires builtin.emitted_requires
  split
  · simp only [mem_btreeInsert, List.mem_cons, List.mem_singleton,
      List.not_mem_nil]
    tauto
  · simp only [mem_btreeInsert, List.mem_singleton]
    tauto

theorem mem_foldl_insert_requires {m : List Nat} {names : List (List Nat)}
    {acc : List (List Nat)} {a : List Nat} :
    a ∈ names.foldl (builtin.insert_requires m) acc ↔
      a ∈ acc ∨ ∃ n, n ∈ names ∧ a ∈ builtin.emitted_requires m n := by
  induction names generalizing acc with
  | nil => simp
  | cons n ns ih =>
    simp only [List.foldl_cons, ih, mem_insert_requires, List.mem_cons]
    constructor
    · rintro ((h | h) | ⟨x, hx, ha⟩)
      · exact Or.inl h
      · exact Or.inr ⟨n, Or.inl rfl, h⟩
      · exact Or.inr ⟨x, Or.inr hx, ha⟩
    · rintro (h | ⟨x, (rfl | hx), ha⟩)
      · exact Or.inl (Or.inl h)
      · exact Or.inl (Or.inr ha)
      · exact Or.inr ⟨x, hx, ha⟩

theorem mem_requires_of_names {names : List (List Nat)} {m a : List Nat} :
    a ∈ builtin.requires_of_names names m ↔
      ∃ n, n ∈ names ∧ builtin.skip_so_name n = true ∧
        a ∈ builtin.emitted_requires m n := by
  simp only [builtin.requires_of_names, mem_foldl_insert_requires,
    List.not_mem_nil, false_or, List.mem_filter]
  constructor
  · rintro ⟨n, ⟨hn, hskip⟩, ha⟩
    exact ⟨n, hn, hskip, ha⟩
  · rintro ⟨n, hn, hskip, ha⟩
    exact ⟨n, ⟨hn, hskip⟩, ha⟩

theorem pairwise_insert_requires {m : List Nat} {acc : List (List Nat)}
    {n : List Nat} (h : acc.Pairwise (fun a b => lexLt a b = true)) :
    (builtin.insert_requires m acc n).Pairwise
      (fun a b => lexLt a b = true) := by
  unfold builtin.insert_requires
  split
  · exact pairwise_btreeInsert (pairwise_btreeInsert h)
  · exact pairwise_btreeInsert h

theorem pairwise_requires_of_names {names : List (List Nat)} {m : List Nat} :
    (builtin.requires_of_names names m).Pairwise
      (fun a b => lexLt a b = true) := by
  unfold builtin.requires_of_names
  generalize names.filter builtin.skip_so_name = l
  have : ∀ (l : List (List Nat)) (acc : List (List Nat)),
      acc.Pairwise (fun a b => lexLt a b = true) →
      (l.foldl (builtin.insert_requires m) acc).Pairwise
        (fun a b => lexLt a b = true) := by
    intro l
    induction l with
    | nil => intro acc h; simpa
    | cons n ns ih =>
      intro acc h
      exact ih _ (pairwise_insert_requires h)
  exact this l [] List.Pairwise.nil

theorem versionedLibraries_nil {p : List Nat} :
    builtin.versioned_libraries [] p = [] := rfl

/-- On a UTF-8 path, find_requires_by_ldd with a successful spawn and read
always returns the set built from the chained unversioned and versioned
candidate streams. -/
theorem find_requires_by_ldd_ok {env : LddEnv} {p : List Nat}
    {marker : Option (List Nat)}
    (hs : env.spawn = none) (hr : env.read = none) :
    builtin.find_requires_by_ldd env (some p) marker =
      some (.ok (builtin.requires_of_names
        (builtin.unversioned_libraries env.output ++
          builtin.versioned_libraries (builtin.version_section env.output) p)
        (marker.getD []))) := by
  obtain ⟨sp, rd, out⟩ := env
  dsimp at hs hr ⊢
  subst hs hr
  cases hvs : builtin.version_section out with
  | nil =>
    simp [builtin.find_requires_by_ldd, hvs, versionedLibraries_nil]
  | cons l ls =>
    simp [builtin.find_requires_by_ldd, hvs]

/-- Inversion: every successful result of find_requires_by_ldd is the set
built by requires_of_names from some candidate list. -/
theorem find_requires_by_ldd_ok_inv {env : LddEnv} {ps : Option (List Nat)}
    {marker : Option (List Nat)} {l : List (List Nat)}
    (h : builtin.find_requires_by_ldd env ps marker = some (.ok l)) :
    ∃ names, l = builtin.requires_of_names names (marker.getD []) := by
  obtain ⟨sp, rd, out⟩ := env
  cases sp with
  | some e => simp [builtin.find_requires_by_ldd] at h
  | none =>
    cases rd with
    | some e => simp [builtin.find_requires_by_ldd] at h
    | none =>
      cases hvs : builtin.version_section out with
      | nil =>
        simp only [builtin.find_requires_by_ldd, hvs, Option.some.injEq] at h
        exact ⟨_, (Except.ok.inj h).symm⟩
      | cons x xs =>
        cases ps with
        | none => simp [builtin.find_requires_by_ldd, hvs] at h
        | some p =>
          simp only [builtin.find_requires_by_ldd, hvs, Option.some.injEq] at h
          exact ⟨_, (Except.ok.inj h).symm⟩

/-- Every successful per-file ELF requirement set is sorted and
duplicate-free. -/
theorem find_requires_of_elf_pairwise {fm : FileModel} {l : List (List Nat)}
    (h : builtin.find_requires_of_elf fm = some (.ok (some l))) :
    l.Pairwise (fun a b => lexLt a b = true) := by
  unfold builtin.find_requires_of_elf at h
  split at h
  · split at h
    · exact absurd h (by simp)
    · exact absurd h (by simp)
    · rename_i info heq reqs hld
      obtain ⟨names, rfl⟩ := find_requires_by_ldd_ok_inv hld
      have h2 := Option.some.inj (Except.ok.inj (Option.some.inj h))
      subst h2
      split
      · exact pairwise_btreeInsert pairwise_requires_of_names
      · exact pairwise_requires_of_names
  · exact absurd h (by simp)

/-- Extending a successful prefix in front of a failing tail preserves the
failure of the whole builtin discovery call. -/
theorem builtin_find_requires_append_error {fs : List Nat → Bool}
    {pre files : List FileModel}
    (hpre : ∀ g ∈ pre, ∃ lg, builtin.per_file_requires fs g = some (.ok lg))
    {e : AutoReqError}
    (h : builtin.find_requires fs files = some (.error e)) :
    builtin.find_requires fs (pre ++ files) = some (.error e) := by
  induction pre with
  | nil => simpa
  | cons g gs ih =>
    obtain ⟨lg, hg⟩ := hpre g (List.mem_cons_self _ _)
    have hrest := ih (fun g' hg' => hpre g' (List.mem_cons_of_mem _ hg'))
    simp [builtin.find_requires, hg, hrest]

theorem prefix_takeWhile {p t : List Nat} {f : Nat → Bool}
    (hf : ∀ b ∈ p, f b = true) : p <+: (p ++ t).takeWhile f := by
  induction p with
  | nil => exact List.nil_prefix
  | cons b bs ih =>
    have hb : f b = true := hf b (List.mem_cons_self _ _)
    rw [List.cons_append, List.takeWhile_cons, if_pos hb]
    obtain ⟨u, hu⟩ := ih (fun x hx => hf x (List.mem_cons_of_mem _ hx))
    exact ⟨u, by rw [List.cons_append, hu]⟩

theorem prefix_filter {p t : List Nat} {f : Nat → Bool}
    (hf : ∀ b ∈ p, f b = true) : p <+: (p ++ t).filter f := by
  rw [List.filter_append, List.filter_eq_self.mpr hf]
  exact List.prefix_append _ _

/-- Every requirement emitted for an accepted candidate keeps the accepted
loader or library prefix of the candidate, because none of the fixed
prefixes contains a space and both base extraction and space removal
preserve space-free prefixes. -/
theorem acceptedStart_emitted {m name r : List Nat}
    (hskip : builtin.skip_so_name name = true)
    (hr : r ∈ builtin.emitted_requires m name) :
    builtin.acceptedStart r = true := by
  have hacc : builtin.acceptedStart name = true := by
    unfold builtin.skip_so_name at hskip
    simp only [Bool.and_eq_true] at hskip
    exact hskip.2
  have hforms : (beforeSpace name <+: r) ∨
      ((name.filter (fun b => !(b == 32))) <+: r) := by
    unfold builtin.emitted_requires at hr
    split at hr
    · rcases List.mem_cons.mp hr with rfl | hr2
      · exact Or.inl ((List.prefix_append _ _).trans (List.prefix_append _ _))
      · rw [List.mem_singleton] at hr2
        subst hr2
        exact Or.inr (List.prefix_append _ _)
    · rw [List.mem_singleton] at hr
      subst hr
      exact Or.inr ((List.prefix_append _ _).trans (List.prefix_append _ _))
  have main : ∀ q : List Nat, q.isPrefixOf name = true →
      (∀ b ∈ q, (!(b == 32)) = true) → q.isPrefixOf r = true := by
    intro q hq hno
    rw [List.isPrefixOf_iff_prefix] at hq ⊢
    obtain ⟨t, rfl⟩ := hq
    rcases hforms with hf | hf
    · exact (prefix_takeWhile hno).trans hf
    · exact (prefix_filter hno).trans hf
  unfold builtin.acceptedStart at hacc ⊢
  simp only [Bool.or_eq_true] at hacc ⊢
  rcases hacc with ((((h | h) | h) | h) | h)
  · exact Or.inl (Or.inl (Or.inl (Or.inl (main _ h (by decide)))))
  · exact Or.inl (Or.inl (Or.inl (Or.inr (main _ h (by decide)))))
  · exact Or.inl (Or.inl (Or.inr (main _ h (by decide))))
  · exact Or.inl (Or.inr (main _ h (by decide)))
  · exact Or.inr (main _ h (by decide))

/-- Every member of a successful per-file ELF requirement set is either the
GNU-hash sentinel or emitted for some accepted candidate name. -/
theorem find_requires_of_elf_mem {fm : FileModel} {l : List (List Nat)}
    (h : builtin.find_requires_of_elf fm = some (.ok (some l))) {r : List Nat}
    (hr : r ∈ l) :
    r = str "rtld(GNU_HASH)" ∨
    ∃ m name, builtin.skip_so_name name = true ∧
      r ∈ builtin.emitted_requires m name := by
  unfold builtin.find_requires_of_elf at h
  split at h
  · split at h
    · exact absurd h (by simp)
    · exact absurd h (by simp)
    · rename_i info heq reqs hld
      obtain ⟨names, rfl⟩ := find_requires_by_ldd_ok_inv hld
      have h2 := Option.some.inj (Except.ok.inj (Option.some.inj h))
      subst h2
      revert hr
      split
      · intro hr
        rcases mem_btreeInsert.mp hr with rfl | hr2
        · exact Or.inl rfl
        · obtain ⟨n, _, hskip, hmem⟩ := mem_requires_of_names.mp hr2
          exact Or.inr ⟨_, n, hskip, hmem⟩
      · intro hr
        obtain ⟨n, _, hskip, hmem⟩ := mem_requires_of_names.mp hr
        exact Or.inr ⟨_, n, hskip, hmem⟩
  · exact absurd h (by simp)

/-- Claim C1 (code-bug evidence): a file whose first two bytes are not the
shebang marker still yields an interpreter requirement.  On the content
consisting of the letter x, a space, the word /bin and a newline (so with
no leading shebang) the analyzer returns the existing path /bin, because
the guard on builtin.rs line 144 uses a logical OR where
an AND was intended, so every file of at least two bytes enters the shebang
branch.  The spec requires None for every file not beginning with the
marker. -/
theorem shebang_accepts_file_without_marker :
    builtin.find_require_of_shebang fs_bin (some (str "x /bin\n")) =
      some (str "/bin") ∧
    (str "x /bin\n").take 2 ≠ str "#!" :=
  ⟨rfl, by decide⟩

/-- Claim C2 (counterexample): the Builtin discovery result is a Vec built
by concatenating per-file contributions, so two candidate files with equal
requirements yield duplicates, and a later file may contribute a
lexicographically smaller string than an earlier one; the returned
collection is neither duplicate-free nor sorted. -/
theorem builtin_requires_dup_unsorted_counterexample :
    builtin.find_requires (fun _ => false) [fmZ, fmA, fmA] =
      some (.ok [str "libz.so.1()", str "liba.so.1()", str "liba.so.1()"]) ∧
    ¬ ([str "libz.so.1()", str "liba.so.1()", str "liba.so.1()"] :
        List (List Nat)).Nodup ∧
    ¬ ([str "libz.so.1()", str "liba.so.1()", str "liba.so.1()"] :
        List (List Nat)).Pairwise (fun a b => lexLt a b = true) :=
  ⟨rfl, by decide, by decide⟩

/-- Claim C2 (amended): each single ELF-analyzed file produces a BTreeSet,
hence a lexicographically sorted, duplicate-free requirement collection;
the overall Builtin discovery result is the concatenation of the per-file
contributions in input order (with no global sorting or deduplication). -/
theorem builtin_requires_per_file_set_concat :
    (∀ (fm : FileModel) (l : List (List Nat)),
      builtin.find_requires_of_elf fm = some (.ok (some l)) →
      l.Pairwise (fun a b => lexLt a b = true) ∧ l.Nodup) ∧
    (∀ (fs : List Nat → Bool) (files : List FileModel)
        (contribs : List (List (List Nat))),
      files.map (builtin.per_file_requires fs) =
        contribs.map (fun l => some (Except.ok l)) →
      builtin.find_requires fs files = some (.ok contribs.flatten)) := by
  constructor
  · intro fm l h
    have hp := find_requires_of_elf_pairwise h
    exact ⟨hp, nodup_of_pairwise_lexLt hp⟩
  · intro fs files
    induction files with
    | nil =>
      intro contribs h
      cases contribs with
      | nil => simp [builtin.find_requires]
      | cons c cs => simp at h
    | cons fm rest ih =>
      intro contribs h
      cases contribs with
      | nil => simp at h
      | cons c cs =>
        simp only [List.map_cons, List.cons.injEq] at h
        obtain ⟨h1, h2⟩ := h
        simp [builtin.find_requires, h1, ih cs h2]

theorem builtin_requires_per_file_set_concat_witness :
    (([str "libz.so.1()"] : List (List Nat)).Pairwise
      (fun a b => lexLt a b = true) ∧
     ([str "libz.so.1()"] : List (List Nat)).Nodup) ∧
    builtin.find_requires (fun _ => false) [fmZ] =
      some (.ok ([[str "libz.so.1()"]] : List (List (List Nat))).flatten) :=
  ⟨builtin_requires_per_file_set_concat.1 fmZ [str "libz.so.1()"] rfl,
   builtin_requires_per_file_set_concat.2 (fun _ => false) [fmZ]
     [[str "libz.so.1()"]] rfl⟩

/-- Claim C3 (counterexample): a versioned-pass candidate whose only
occurrence of .so lies inside the parenthesized annotation is accepted, and
its unversioned requirement neither contains .so nor equals the GNU-hash
sentinel. -/
theorem soname_invariant_counterexample :
    builtin.find_requires_of_elf fmParen =
      some (.ok (some [str "lib()", str "lib(.so)"])) ∧
    str "lib()" ∈ ([str "lib()", str "lib(.so)"] : List (List Nat)) ∧
    containsSeq (str ".so") (str "lib()") = false ∧
    str "lib()" ≠ str "rtld(GNU_HASH)" :=
  ⟨rfl, by decide, by decide, by decide⟩

/-- Claim C3 (amended): every requirement produced by the ELF-analysis path
either contains the substring .so, or is exactly the GNU-hash sentinel, or
starts with one of the accepted loader or library prefixes (the last case
arises for the unversioned form of an accepted candidate whose .so occurs
only after its first space); and the acceptance predicate admits exactly
the candidates containing .so that start with one of those prefixes. -/
theorem soname_filtering_invariant_amended :
    (∀ (fm : FileModel) (l : List (List Nat)),
      builtin.find_requires_of_elf fm = some (.ok (some l)) →
      ∀ r ∈ l, containsSeq (str ".so") r = true ∨ r = str "rtld(GNU_HASH)" ∨
        builtin.acceptedStart r = true) ∧
    (∀ name : List Nat, builtin.skip_so_name name = true →
      containsSeq (str ".so") name = true ∧
      builtin.acceptedStart name = true) := by
  constructor
  · intro fm l h r hr
    rcases find_requires_of_elf_mem h hr with rfl | ⟨m, name, hskip, hmem⟩
    · exact Or.inr (Or.inl rfl)
    · exact Or.inr (Or.inr (acceptedStart_emitted hskip hmem))
  · intro name h
    unfold builtin.skip_so_name at h
    simpa only [Bool.and_eq_true] using h

theorem soname_filtering_invariant_amended_witness :
    (containsSeq (str ".so") (str "lib()") = true ∨
      str "lib()" = str "rtld(GNU_HASH)" ∨
      builtin.acceptedStart (str "lib()") = true) ∧
    (containsSeq (str ".so") (str "libc.so.6") = true ∧
      builtin.acceptedStart (str "libc.so.6") = true) :=
  ⟨soname_filtering_invariant_amended.1 fmParen [str "lib()", str "lib(.so)"]
     rfl (str "lib()") (by decide),
   soname_filtering_invariant_amended.2 (str "libc.so.6") (by decide)⟩

/-- Claim C4: the architecture marker is a pure function of the bit class
and machine code: every 32-bit descriptor gets the empty marker (none);
every 64-bit descriptor gets the 64-bit marker unless the machine code is
one of the two legacy Alpha identifiers (the canonical EM_ALPHA code 41 and
the known-incorrect vendor value 0x9026), which get the empty marker. -/
theorem elf_marker_derivation (i : ElfInfo) :
    (i.machine.1 = elf.Class.ELF32 → i.marker = none) ∧
    (i.machine.1 = elf.Class.ELF64 →
      ((i.machine.2 = elf.EM_ALPHA ∨ i.machine.2 = 0x9026) →
        i.marker = none) ∧
      (i.machine.2 ≠ elf.EM_ALPHA → i.machine.2 ≠ 0x9026 →
        i.marker = some (str "(64bit)"))) := by
  obtain ⟨⟨cls, m⟩, gh, gg⟩ := i
  cases cls with
  | ELF32 => exact ⟨fun _ => rfl, fun h => by simp at h⟩
  | ELF64 =>
    refine ⟨fun h => by simp at h, fun _ => ⟨?_, ?_⟩⟩
    · intro h
      rcases h with rfl | rfl
      · simp [ElfInfo.marker, elf.EM_ALPHA]
      · simp [ElfInfo.marker, elf.EM_ALPHA]
    · intro h1 h2
      have h1' : m ≠ 41 := h1
      simp [ElfInfo.marker, elf.EM_ALPHA, h1', h2]

theorem elf_marker_derivation_witness :
    ElfInfo.marker ⟨(elf.Class.ELF32, 62), false, false⟩ = none ∧
    ElfInfo.marker ⟨(elf.Class.ELF64, 62), false, false⟩ =
      some (str "(64bit)") ∧
    ElfInfo.marker ⟨(elf.Class.ELF64, 41), false, false⟩ = none ∧
    ElfInfo.marker ⟨(elf.Class.ELF64, 0x9026), false, false⟩ = none :=
  ⟨(elf_marker_derivation _).1 rfl,
   ((elf_marker_derivation _).2 rfl).2 (by decide) (by decide),
   ((elf_marker_derivation _).2 rfl).1 (Or.inl rfl),
   ((elf_marker_derivation _).2 rfl).1 (Or.inr rfl)⟩

/-- Claim C5: in Disabled mode the dispatcher returns the empty requirement
collection without error, for every candidate list and every environment;
the result does not depend on the environment oracle at all, which is the
shallow-embedding form of performing no filesystem reads and no process
spawns. -/
theorem disabled_mode_no_requirements (env : auto_req.Env)
    (files : List FileModel) :
    auto_req.find_requires env files auto_req.AutoReqMode.Disabled =
      some (.ok []) := by
  simp [auto_req.find_requires]

/-- Claim C6: on a UTF-8 path, every successful ldd analysis returns exactly
the requirement strings emitted for the accepted candidates of the chained
unversioned and versioned streams: an accepted candidate containing a
space-parenthesis annotation contributes both the unversioned form (text
before the first space, empty parentheses, marker) and the versioned form
(candidate with spaces removed, marker); any other accepted candidate
contributes only the unversioned form. -/
theorem ldd_naming_synthesis (env : LddEnv) (p : List Nat)
    (marker : Option (List Nat)) (l : List (List Nat))
    (h : builtin.find_requires_by_ldd env (some p) marker = some (.ok l))
    (r : List Nat) :
    r ∈ l ↔ ∃ name,
      name ∈ builtin.unversioned_libraries env.output ++
        builtin.versioned_libraries (builtin.version_section env.output) p ∧
      builtin.skip_so_name name = true ∧
      r ∈ builtin.emitted_requires (marker.getD []) name := by
  obtain ⟨sp, rd, out⟩ := env
  cases sp with
  | some e => simp [builtin.find_requires_by_ldd] at h
  | none =>
    cases rd with
    | some e => simp [builtin.find_requires_by_ldd] at h
    | none =>
      rw [find_requires_by_ldd_ok rfl rfl] at h
      have h2 := Except.ok.inj (Option.some.inj h)
      subst h2
      exact mem_requires_of_names

theorem ldd_naming_synthesis_witness :
    str "lib()" ∈ ([str "lib()", str "lib(.so)"] : List (List Nat)) ↔
      ∃ name,
        name ∈ builtin.unversioned_libraries lddParen.output ++
          builtin.versioned_libraries
            (builtin.version_section lddParen.output) (str "/bin/x") ∧
        builtin.skip_so_name name = true ∧
        str "lib()" ∈ builtin.emitted_requires
          ((none : Option (List Nat)).getD []) name :=
  ldd_naming_synthesis lddParen (str "/bin/x") none
    [str "lib()", str "lib(.so)"] rfl (str "lib()")

/-- Claim C7: the external-script adapter pipes exactly the UTF-8
convertible candidate paths, newline-joined, to the program, and returns
the program stdout lines with empty lines discarded and nothing else
changed, deduplicated or validated; an echoing program on the two-path
candidate list returns exactly those two paths; no result entry is ever the
empty string. -/
theorem script_adapter_contract :
    (∀ (sp : List Nat) (env : script.ScriptEnv)
        (path : List (Option (List Nat))) (out : List Nat),
      env.spawn = none → env.write = none →
      env.run (joinNL (path.filterMap id)) = .ok out →
      script.find_requires sp env path =
        .ok ((rustLines out).filter (fun content => !(content == [])))) ∧
    (∀ (sp : List Nat) (env : script.ScriptEnv)
        (path : List (Option (List Nat))) (l : List (List Nat)),
      script.find_requires sp env path = .ok l → ∀ r ∈ l, r ≠ []) ∧
    script.find_requires (str "/bin/cat") echoEnv
      [some (str "/a/b"), some (str "/c/d")] =
      .ok [str "/a/b", str "/c/d"] := by
  refine ⟨?_, ?_, rfl⟩
  · intro sp env path out hs hw hrun
    obtain ⟨esp, ew, erun⟩ := env
    dsimp at hs hw hrun
    subst hs hw
    simp [script.find_requires, hrun]
  · intro sp env path l h r hr
    obtain ⟨esp, ew, erun⟩ := env
    cases esp with
    | some e => simp [script.find_requires] at h
    | none =>
      cases ew with
      | some e => simp [script.find_requires] at h
      | none =>
        cases hrun : erun (joinNL (path.filterMap id)) with
        | error e => simp [script.find_requires, hrun] at h
        | ok stdout =>
          simp only [script.find_requires, hrun] at h
          have h2 := Except.ok.inj h
          subst h2
          have hpred := (List.mem_filter.mp hr).2
          intro hEq
          subst hEq
          simp at hpred

theorem script_adapter_contract_witness :
    (echoEnv.spawn = none ∧ echoEnv.write = none ∧
      echoEnv.run (joinNL (([some (str "/a/b"), some (str "/c/d")] :
          List (Option (List Nat))).filterMap id)) =
        .ok (joinNL [str "/a/b", str "/c/d"]) ∧
      script.find_requires (str "/bin/cat") echoEnv
        [some (str "/a/b"), some (str "/c/d")] =
        .ok ((rustLines (joinNL [str "/a/b", str "/c/d"])).filter
          (fun content => !(content == [])))) ∧
    str "/a/b" ≠ ([] : List Nat) :=
  ⟨⟨rfl, rfl, rfl,
    script_adapter_contract.1 (str "/bin/cat") echoEnv
      [some (str "/a/b"), some (str "/c/d")]
      (joinNL [str "/a/b", str "/c/d"]) rfl rfl rfl⟩,
   script_adapter_contract.2.1 (str "/bin/cat") echoEnv
     [some (str "/a/b"), some (str "/c/d")] [str "/a/b", str "/c/d"]
     script_adapter_contract.2.2 (str "/a/b") (by decide)⟩

/-- Claim C8: every spawn or read failure of the ldd introspection in
Builtin mode, after any run of successfully analyzed candidate files, and
every spawn, stdin-write or stdout-read failure in ExternalScript mode,
makes the whole discovery call return a ProcessError carrying the program
name and the underlying I/O cause (never a silently empty or partial
result). -/
theorem process_error_fatality :
    (∀ (fs : List Nat → Bool) (pre : List FileModel) (fm : FileModel)
        (rest : List FileModel) (info : ElfInfo) (e : Nat),
      (∀ g ∈ pre, ∃ lg, builtin.per_file_requires fs g = some (.ok lg)) →
      fm.is_executable = true → fm.elf = some info → fm.ldd.spawn = some e →
      builtin.find_requires fs (pre ++ fm :: rest) =
        some (.error (.ProcessError (str "ldd") e))) ∧
    (∀ (fs : List Nat → Bool) (pre : List FileModel) (fm : FileModel)
        (rest : List FileModel) (info : ElfInfo) (e : Nat),
      (∀ g ∈ pre, ∃ lg, builtin.per_file_requires fs g = some (.ok lg)) →
      fm.is_executable = true → fm.elf = some info → fm.ldd.spawn = none →
      fm.ldd.read = some e →
      builtin.find_requires fs (pre ++ fm :: rest) =
        some (.error (.ProcessError (str "ldd") e))) ∧
    (∀ (sp : List Nat) (env : script.ScriptEnv)
        (path : List (Option (List Nat))) (e : Nat),
      env.spawn = some e →
      script.find_requires sp env path = .error (.ProcessError sp e)) ∧
    (∀ (sp : List Nat) (env : script.ScriptEnv)
        (path : List (Option (List Nat))) (e : Nat),
      env.spawn = none → env.write = some e →
      script.find_requires sp env path = .error (.ProcessError sp e)) ∧
    (∀ (sp : List Nat) (env : script.ScriptEnv)
        (path : List (Option (List Nat))) (e : Nat),
      env.spawn = none → env.write = none →
      env.run (joinNL (path.filterMap id)) = .error e →
      script.find_requires sp env path = .error (.ProcessError sp e)) := by
  refine ⟨?_, ?_, ?_, ?_, ?_⟩
  · intro fs pre fm rest info e hpre hex helf hspawn
    refine builtin_find_requires_append_error hpre ?_
    have hfile : builtin.per_file_requires fs fm =
        some (.error (.ProcessError (str "ldd") e)) := by
      simp [builtin.per_file_requires, hex, builtin.find_requires_of_elf,
        helf, builtin.find_requires_by_ldd, hspawn]
    simp [builtin.find_requires, hfile]
  · intro fs pre fm rest info e hpre hex helf hspawn hread
    refine builtin_find_requires_append_error hpre ?_
    have hfile : builtin.per_file_requires fs fm =
        some (.error (.ProcessError (str "ldd") e)) := by
      simp [builtin.per_file_requires, hex, builtin.find_requires_of_elf,
        helf, builtin.find_requires_by_ldd, hspawn, hread]
    simp [builtin.find_requires, hfile]
  · intro sp env path e hs
    simp [script.find_requires, hs]
  · intro sp env path e hs hw
    simp [script.find_requires, hs, hw]
  · intro sp env path e hs hw hrun
    simp [script.find_requires, hs, hw, hrun]

theorem process_error_fatality_witness :
    builtin.find_requires (fun _ => false) ([] ++ fmSpawnFail :: []) =
      some (.error (.ProcessError (str "ldd") 7)) ∧
    builtin.find_requires (fun _ => false) ([] ++ fmReadFail :: []) =
      some (.error (.ProcessError (str "ldd") 8)) ∧
    script.find_requires (str "/s") ⟨some 9, none, fun _ => .ok []⟩ [] =
      .error (.ProcessError (str "/s") 9) ∧
    script.find_requires (str "/s") ⟨none, some 10, fun _ => .ok []⟩ [] =
      .error (.ProcessError (str "/s") 10) ∧
    script.find_requires (str "/s") ⟨none, none, fun _ => .error 11⟩ [] =
      .error (.ProcessError (str "/s") 11) :=
  ⟨process_error_fatality.1 (fun _ => false) [] fmSpawnFail [] info386 7
     (by simp) rfl rfl rfl,
   process_error_fatality.2.1 (fun _ => false) [] fmReadFail [] info386 8
     (by simp) rfl rfl rfl rfl,
   process_error_fatality.2.2.1 (str "/s") ⟨some 9, none, fun _ => .ok []⟩
     [] 9 rfl,
   process_error_fatality.2.2.2.1 (str "/s") ⟨none, some 10, fun _ => .ok []⟩
     [] 10 rfl rfl,
   process_error_fatality.2.2.2.2 (str "/s") ⟨none, none, fun _ => .error 11⟩
     [] 11 rfl rfl rfl⟩

/-- Claim C9 (code-bug evidence): an executable candidate that is not a
recognized object file and whose content does not begin with the shebang
marker nevertheless contributes a requirement in Builtin mode (instead of
the zero requirements the spec prescribes), through the same OR-for-AND
guard slip of builtin.rs line 144; the call still returns no error. -/
theorem builtin_no_shebang_file_contributes :
    builtin.find_requires fs_bin [fmNoElf] = some (.ok [str "/bin"]) ∧
    fmNoElf.elf = none ∧
    fmNoElf.content = some (str "x /bin\n") ∧
    (str "x /bin\n").take 2 ≠ str "#!" :=
  ⟨rfl, rfl, rfl, by decide⟩

/-- Claim C10 (counterexample): a candidate with a non-UTF-8 path that
parses as an ELF object is analyzed without any panic whenever the ldd
output contains no version-information marker line: the unwrap closure of
the versioned pass is never invoked by the lazy iterator chain, and the
call returns the unversioned requirements normally. -/
theorem non_utf8_path_no_panic_counterexample :
    builtin.find_requires (fun _ => false) [fmBadPath] =
      some (.ok [str "libfoo.so.1()"]) ∧
    fmBadPath.pathStr = none ∧
    fmBadPath.elf = some info386 ∧
    builtin.find_requires (fun _ => false) [fmBadPath] ≠ none := by
  have h1 : builtin.find_requires (fun _ => false) [fmBadPath] =
      some (.ok [str "libfoo.so.1()"]) := rfl
  exact ⟨h1, rfl, rfl, by rw [h1]; exact Option.some_ne_none _⟩

/-- Claim C10 (amended): for a candidate whose path is not valid UTF-8 but
which parses as an ELF object, with ldd spawned and its output read
successfully, the versioned-pass parsing forces path.to_str().unwrap() and
panics while consuming the output exactly when the newline-split output has
at least one piece after the first piece containing the version-information
marker; when no such piece follows (marker absent, or the marker line is
the final unterminated line), the unwrap closure is never invoked and the
call returns the unversioned-pass requirement set normally, with no panic,
no DiscoveryError and no soft-fail; a panic aborts the whole Builtin
discovery call. -/
theorem non_utf8_path_panics_with_version_section :
    (∀ (env : LddEnv) (marker : Option (List Nat)),
      env.spawn = none → env.read = none →
      (builtin.find_requires_by_ldd env none marker = none ↔
        builtin.version_section env.output ≠ [])) ∧
    (∀ (env : LddEnv) (marker : Option (List Nat)),
      env.spawn = none → env.read = none →
      builtin.version_section env.output = [] →
      builtin.find_requires_by_ldd env none marker =
        some (.ok (builtin.requires_of_names
          (builtin.unversioned_libraries env.output) (marker.getD [])))) ∧
    (∀ (fs : List Nat → Bool) (fm : FileModel) (rest : List FileModel)
        (info : ElfInfo),
      fm.is_executable = true → fm.elf = some info → fm.pathStr = none →
      fm.ldd.spawn = none → fm.ldd.read = none →
      builtin.version_section fm.ldd.output ≠ [] →
      builtin.find_requires fs (fm :: rest) = none) := by
  have part0 : ∀ (env : LddEnv) (marker : Option (List Nat)),
      env.spawn = none → env.read = none →
      (builtin.find_requires_by_ldd env none marker = none ↔
        builtin.version_section env.output ≠ []) := by
    intro env marker hs hr
    obtain ⟨sp, rd, out⟩ := env
    dsimp at hs hr ⊢
    subst hs hr
    cases h : builtin.version_section out with
    | nil => simp [builtin.find_requires_by_ldd, h]
    | cons x xs => simp [builtin.find_requires_by_ldd, h]
  have part1 : ∀ (env : LddEnv) (marker : Option (List Nat)),
      env.spawn = none → env.read = none →
      builtin.version_section env.output = [] →
      builtin.find_requires_by_ldd env none marker =
        some (.ok (builtin.requires_of_names
          (builtin.unversioned_libraries env.output) (marker.getD []))) := by
    intro env marker hs hr hvs
    obtain ⟨sp, rd, out⟩ := env
    dsimp at hs hr hvs
    subst hs hr
    simp [builtin.find_requires_by_ldd, hvs]
  refine ⟨part0, part1, ?_⟩
  intro fs fm rest info hex helf hps hs hr hvs
  have hldd := (part0 fm.ldd info.marker hs hr).mpr hvs
  have hfile : builtin.per_file_requires fs fm = none := by
    simp [builtin.per_file_requires, hex, builtin.find_requires_of_elf,
      helf, hps, hldd]
  simp [builtin.find_requires, hfile]

theorem non_utf8_path_panics_witness :
    ((builtin.find_requires_by_ldd fmBadPathVI.ldd none none = none) ↔
      builtin.version_section fmBadPathVI.ldd.output ≠ []) ∧
    builtin.find_requires_by_ldd fmBadPath.ldd none none =
      some (.ok (builtin.requires_of_names
        (builtin.unversioned_libraries fmBadPath.ldd.output)
        ((none : Option (List Nat)).getD []))) ∧
    builtin.find_requires_by_ldd lddVILast none none =
      some (.ok (builtin.requires_of_names
        (builtin.unversioned_libraries lddVILast.output)
        ((none : Option (List Nat)).getD []))) ∧
    builtin.find_requires (fun _ => false) [fmBadPathVI] = none :=
  ⟨non_utf8_path_panics_with_version_section.1 fmBadPathVI.ldd none rfl rfl,
   non_utf8_path_panics_with_version_section.2.1 fmBadPath.ldd none
     rfl rfl rfl,
   non_utf8_path_panics_with_version_section.2.1 lddVILast none rfl rfl rfl,
   non_utf8_path_panics_with_version_section.2.2 (fun _ => false) fmBadPathVI
     [] info386 rfl rfl rfl rfl rfl (by decide)⟩
